import Mathlib

/-!
# HackCrypt crowdfunding — verification of the escrow ledger and its client

Shallow embedding of the HackCrypt crowdfunding repository.

* The on-chain escrow state machine (`CrowdFunding.sol`) is not part of the
  repository snapshot; only its client wrapper
  (`client/src/blockchain/contract.js`), the React application
  (`client/src/App.tsx`) and deployment glue are.  The state machine is
  therefore modelled from the specification (components `...Chain` below),
  while the client-side functions (`formatCampaign`, `donateToCampaign`,
  `getCampaigns`, the deadline conversions of `createCampaign`, and the
  campaign transformation inside `App.tsx`'s `loadCampaigns`) are embedded
  directly from the JavaScript/TypeScript source.

Amounts are Wei (`Nat`); identities (addresses) are `Nat`; timestamps are
`Nat` (seconds on chain, milliseconds in the browser).
-/

namespace HackCrypt

/-- Campaign lifecycle states.  From `contract.js` line 277:
`CampaignState enum: 0=Active, 1=Successful, 2=Failed, 3=Withdrawn`. -/
inductive CampaignState where
  | Active
  | Successful
  | Failed
  | Withdrawn
deriving DecidableEq, Repr

/-- Numeric encoding of the state enum, as the client receives it. -/
def CampaignState.toNum : CampaignState → Nat
  | .Active => 0
  | .Successful => 1
  | .Failed => 2
  | .Withdrawn => 3

/-- One contribution record: cumulative amount per contributor plus the
per-pair refunded marker (spec §3: "value = cumulative amount", "requires a
separate refunded marker per pair"). -/
structure Contrib where
  addr : Nat
  amount : Nat
  refunded : Bool
deriving DecidableEq, Repr

/-- A campaign record (spec §3 data model). -/
structure Campaign where
  owner : Nat
  title : String
  description : String
  image : String
  target : Nat
  deadline : Nat
  amountCollected : Nat
  state : CampaignState
  contribs : List Contrib
deriving DecidableEq, Repr

/-- The persisted ledger: one growable table of campaigns keyed by
sequential id (spec §6 "Persisted state layout"). -/
structure Store where
  campaigns : List Campaign
deriving DecidableEq, Repr

/-- Error taxonomy of spec §7. -/
inductive Err where
  | InvalidParameters
  | NotFound
  | CampaignNotActive
  | AlreadyFinalized
  | NotSuccessful
  | NotFailed
  | AlreadyWithdrawn
  | NothingToRefund
  | Unauthorized
  | DeadlinePassed
  | TooEarly
deriving DecidableEq, Repr

/-- External observable actions of the custody operations: the state /
marker mutation and the external transfer, in execution order. -/
inductive Event where
  | SetState (id : Nat) (st : CampaignState)
  | MarkRefunded (id : Nat) (addr : Nat)
  | Transfer (recipient : Nat) (amount : Nat)
deriving DecidableEq, Repr

def setCampaign (s : Store) (id : Nat) (c : Campaign) : Store :=
  ⟨s.campaigns.set id c⟩

/-- Add `amt` to `addr`'s cumulative total (set semantics on contributor:
each contributor appears once per campaign, spec §3). -/
def bumpContrib : List Contrib → Nat → Nat → List Contrib
  | [], addr, amt => [⟨addr, amt, false⟩]
  | x :: xs, addr, amt =>
      if x.addr = addr then { x with amount := x.amount + amt } :: xs
      else x :: bumpContrib xs addr amt

def addContribution (c : Campaign) (addr amt : Nat) : Campaign :=
  { c with amountCollected := c.amountCollected + amt,
           contribs := bumpContrib c.contribs addr amt }

/-- Modelled from the spec: `createCampaign` of the Campaign Registry
(§4.1); the Solidity contract is absent from the snapshot.  Fails with
`InvalidParameters` if target ≤ 0 or deadline ≤ current time; otherwise
assigns the next sequential id and stores the campaign Active with
`amountCollected = 0`. -/
def createCampaignChain (s : Store) (owner : Nat) (title description : String)
    (target deadline : Nat) (image : String) (now : Nat) :
    Except Err (Store × Nat) :=
  if target = 0 then .error .InvalidParameters
  else if deadline ≤ now then .error .InvalidParameters
  else .ok (⟨s.campaigns ++ [⟨owner, title, description, image, target,
      deadline, 0, .Active, []⟩]⟩, s.campaigns.length)

/-- Modelled from the spec: `recordContribution` / `donateToCampaign` of the
Donation Ledger (§4.2); the Solidity contract is absent from the snapshot.
Checks in the spec's order: `NotFound`, `CampaignNotActive`,
`InvalidParameters` (amount ≤ 0), `DeadlinePassed` (current time ≥
deadline). -/
def donateToCampaignChain (s : Store) (id contributor amount now : Nat) :
    Except Err Store :=
  match s.campaigns[id]? with
  | none => .error .NotFound
  | some c =>
      if c.state ≠ .Active then .error .CampaignNotActive
      else if amount = 0 then .error .InvalidParameters
      else if c.deadline ≤ now then .error .DeadlinePassed
      else .ok (setCampaign s id (addContribution c contributor amount))

/-- Modelled from the spec: `finalize` of the Escrow State Machine (§4.3);
the Solidity contract is absent from the snapshot.  Decision rule: if
`amountCollected >= target` then Successful else Failed. -/
def finalizeCampaignChain (s : Store) (id now : Nat) :
    Except Err (Store × CampaignState) :=
  match s.campaigns[id]? with
  | none => .error .NotFound
  | some c =>
      if c.state ≠ .Active then .error .AlreadyFinalized
      else if now < c.deadline then .error .TooEarly
      else
        let st := if c.target ≤ c.amountCollected then
          CampaignState.Successful else CampaignState.Failed
        .ok (setCampaign s id { c with state := st }, st)

/-- Modelled from the spec: `withdrawFunds` of Fund Custody (§4.4); the
Solidity contract is absent from the snapshot.  On success the state is set
to Withdrawn and THEN the full pooled balance is transferred, recorded as
the ordered event trace. -/
def withdrawFundsChain (s : Store) (id caller : Nat) :
    Except Err (Store × List Event) :=
  match s.campaigns[id]? with
  | none => .error .NotFound
  | some c =>
      if caller ≠ c.owner then .error .Unauthorized
      else if c.state = .Withdrawn then .error .AlreadyWithdrawn
      else if c.state ≠ .Successful then .error .NotSuccessful
      else .ok (setCampaign s id { c with state := .Withdrawn },
        [.SetState id .Withdrawn, .Transfer c.owner c.amountCollected])

def markRefunded (c : Campaign) (addr : Nat) : Campaign :=
  { c with contribs := c.contribs.map fun x =>
      if x.addr = addr then { x with refunded := true } else x }

/-- Modelled from the spec: `claimRefund` of Fund Custody (§4.4); the
Solidity contract is absent from the snapshot.  On success the (campaign,
caller) pair is marked refunded BEFORE the transfer of exactly the caller's
recorded cumulative contribution, recorded as the ordered event trace. -/
def claimRefundChain (s : Store) (id caller : Nat) :
    Except Err (Store × List Event) :=
  match s.campaigns[id]? with
  | none => .error .NotFound
  | some c =>
      if c.state ≠ .Failed then .error .NotFailed
      else
        match c.contribs.find? (fun x => x.addr = caller) with
        | none => .error .NothingToRefund
        | some x =>
            if x.amount = 0 ∨ x.refunded then .error .NothingToRefund
            else .ok (setCampaign s id (markRefunded c caller),
              [.MarkRefunded id caller, .Transfer caller x.amount])

/-- The campaign summary returned by the paginated chain query: no
contributor lists (spec §4.5 "Must not include contributor lists").  The
client reads these fields plus the numeric state. -/
structure CampaignInfo where
  owner : Nat
  title : String
  description : String
  image : String
  target : Nat
  deadline : Nat
  amountCollected : Nat
  state : Nat
deriving DecidableEq, Repr

def Campaign.toInfo (c : Campaign) : CampaignInfo :=
  ⟨c.owner, c.title, c.description, c.image, c.target, c.deadline,
   c.amountCollected, c.state.toNum⟩

/-- Modelled from the spec: the paginated Query Layer `getCampaigns`
(§4.5); the Solidity contract is absent from the snapshot.  Returns the
slice `[offset, offset+limit)` of the registry in creation-id order,
paired with each campaign's creation id. -/
def getCampaignsChain (s : Store) (offset limit : Nat) :
    List (Nat × CampaignInfo) :=
  (((List.range s.campaigns.length).drop offset).take limit).filterMap
    fun i => (s.campaigns[i]?).map fun c => (i, c.toInfo)

/-! ## Client-side functions, embedded from `client/src/blockchain/contract.js`
and `client/src/App.tsx`.

ETH amounts entered by a user are modelled as exact decimals `mant / 10^decs`
(`mant` the digit string read as a number, `decs` the number of fractional
digits).  `ethers.parseEther` converts such a decimal to Wei exactly and
rejects more than 18 fractional digits; `ethers.formatEther` is the exact
inverse and is modelled as the exact rational `wei / 10^18`. -/

/-- `ethers.parseEther` on the decimal `mant / 10^decs`: exact Wei value,
`none` when the decimal has more than 18 fractional digits (ethers throws). -/
def parseEther (mant decs : Nat) : Option Nat :=
  if decs ≤ 18 then some (mant * 10 ^ (18 - decs)) else none

/-- `ethers.formatEther`: Wei to ETH, exact. -/
def formatEther (wei : Nat) : ℚ :=
  (wei : ℚ) / 10 ^ 18

/-- A transaction request as the client builds it: target campaign id and the
Wei `value` attached to the call. -/
structure TxRequest where
  campaignId : Nat
  value : Nat
deriving DecidableEq, Repr

/-- `donateToCampaign` from `contract.js` lines 82–98: converts the ETH
amount to Wei with `parseEther` and sends the transaction with exactly that
Wei amount as its `value`. -/
def donateToCampaign (campaignId mant decs : Nat) : Option TxRequest :=
  (parseEther mant decs).map fun amountWei => ⟨campaignId, amountWei⟩

/-- The deadline conversion inside `createCampaign` (`contract.js` line 58):
`Math.floor(deadline / 1000)`, milliseconds to seconds. -/
def createDeadlineSeconds (deadline : Nat) : Nat :=
  deadline / 1000

/-- The argument tuple `createCampaign` (`contract.js` lines 50–74) passes to
the contract: target converted to Wei, deadline converted to seconds. -/
structure CreateCampaignArgs where
  owner : Nat
  title : String
  description : String
  targetWei : Option Nat
  deadlineSeconds : Nat
  image : String
deriving DecidableEq, Repr

/-- `createCampaign` from `contract.js` lines 50–74 (argument marshalling:
`ethers.parseEther` on the target, `Math.floor(deadline / 1000)` on the
millisecond deadline). -/
def createCampaign (owner : Nat) (title description : String)
    (targetMant targetDecs deadline : Nat) (image : String) :
    CreateCampaignArgs :=
  ⟨owner, title, description, parseEther targetMant targetDecs,
   createDeadlineSeconds deadline, image⟩

/-- JavaScript `x || y || 0` on optional numbers: `0` and `undefined` are
falsy. -/
def jsOrNat (x y : Option Nat) : Nat :=
  match x with
  | some v => if v ≠ 0 then v else match y with
      | some w => if w ≠ 0 then w else 0
      | none => 0
  | none => match y with
      | some w => if w ≠ 0 then w else 0
      | none => 0

/-- JavaScript `x || y || ''` on optional strings: `""` and `undefined` are
falsy. -/
def jsOrStr (x y : Option String) : String :=
  match x with
  | some v => if v ≠ "" then v else match y with
      | some w => if w ≠ "" then w else ""
      | none => ""
  | none => match y with
      | some w => if w ≠ "" then w else ""
      | none => ""

/-- JavaScript `x || y || []` on optional arrays: an array — even an empty
one — is truthy, only `undefined` falls through. -/
def jsOrList (x y : Option (List α)) : List α :=
  match x with
  | some l => l
  | none => match y with
      | some l => l
      | none => []

/-- The raw campaign object `formatCampaign` receives from ethers: every
field the function reads, each optional where the function guards against
its absence. -/
structure CampaignData where
  owner : Nat
  title : String
  description : String
  state : Option Nat
  target : Option Nat
  goal : Option Nat
  deadline : Nat
  amountCollected : Option Nat
  image : Option String
  imageUrl : Option String
  donators : Option (List Nat)
  donations : Option (List Nat)
deriving DecidableEq, Repr

/-- Placeholder record types mirroring `App.tsx`'s `Milestone`,
`Contribution` and `RewardTier`; the client only ever produces empty lists
of them. -/
structure Milestone where
  id : String
  title : String
deriving DecidableEq, Repr

structure ContributionRec where
  id : String
  campaignId : String
  contributor : Nat
  amount : ℚ
deriving DecidableEq, Repr

structure RewardTier where
  id : String
  title : String
  amount : ℚ
deriving DecidableEq, Repr

/-- The object `formatCampaign` returns (`contract.js` lines 292–316). -/
structure FormattedCampaign where
  id : String
  owner : Nat
  title : String
  description : String
  target : ℚ
  goal : ℚ
  deadline : Nat
  amountCollected : ℚ
  raised : ℚ
  image : String
  imageUrl : String
  donators : List Nat
  donations : List ℚ
  status : String
  state : Nat
  creator : Nat
  currency : String
  category : String
  milestones : List Milestone
  contributions : List ContributionRec
  rewardTiers : List RewardTier
deriving DecidableEq, Repr

/-- `formatCampaign` from `contract.js` lines 284–317: resolves the numeric
state (default 0 when absent), derives the status string, converts Wei
fields to ETH and the deadline from seconds to milliseconds, and emits empty
`milestones` / `contributions` / `rewardTiers`. -/
def formatCampaign (campaignData : CampaignData) (id : Nat)
    (donators : Option (List Nat)) (donations : Option (List Nat)) :
    FormattedCampaign :=
  let state := match campaignData.state with
    | some s => s
    | none => 0
  let status :=
    if state = 1 then "successful"
    else if state = 2 then "failed"
    else if state = 3 then "withdrawn"
    else "active"
  { id := toString id
    owner := campaignData.owner
    title := campaignData.title
    description := campaignData.description
    target := formatEther (jsOrNat campaignData.target campaignData.goal)
    goal := formatEther (jsOrNat campaignData.target campaignData.goal)
    deadline := campaignData.deadline * 1000
    amountCollected := formatEther (jsOrNat campaignData.amountCollected none)
    raised := formatEther (jsOrNat campaignData.amountCollected none)
    image := jsOrStr campaignData.image campaignData.imageUrl
    imageUrl := jsOrStr campaignData.image campaignData.imageUrl
    donators := jsOrList donators campaignData.donators
    donations := (jsOrList donations campaignData.donations).map formatEther
    status := status
    state := state
    creator := campaignData.owner
    currency := "MATIC"
    category := "General"
    milestones := []
    contributions := []
    rewardTiers := [] }

/-- The `CampaignInfo` struct as the client's `formatCampaign` consumes it:
the paginated view carries no `donators` / `donations` arrays, so those
fields are absent (`none`), and no separate `goal` / `imageUrl` aliases. -/
def CampaignInfo.toData (info : CampaignInfo) : CampaignData :=
  ⟨info.owner, info.title, info.description, some info.state,
   some info.target, none, info.deadline, some info.amountCollected,
   some info.image, none, none, none⟩

/-- `getCampaigns` from `contract.js` lines 106–123: fetches the paginated
`CampaignInfo` slice from the contract and maps each entry through
`formatCampaign`, passing the (absent) `donators` / `donations` fields. -/
def getCampaigns (s : Store) (offset limit : Nat) : List FormattedCampaign :=
  (getCampaignsChain s offset limit).map fun p =>
    formatCampaign p.2.toData p.1 p.2.toData.donators p.2.toData.donations

/-- `getCampaigns` called with no arguments uses the default parameters
`offset = 0, limit = 20` (`contract.js` line 106). -/
def getCampaignsDefault (s : Store) : List FormattedCampaign :=
  getCampaigns s 0 20

/-- The campaign object `App.tsx` renders. -/
structure AppCampaign where
  id : String
  title : String
  creator : Nat
  description : String
  goal : ℚ
  raised : ℚ
  currency : String
  deadline : Nat
  category : String
  imageUrl : String
  status : String
  milestones : List Milestone
  contributions : List ContributionRec
  rewardTiers : List RewardTier
deriving DecidableEq, Repr

/-- The status derivation inside `loadCampaigns` (`App.tsx` lines 115–130):
when the contract state is present it is mapped through the enum; otherwise
a fallback infers the status from the deadline and the raised/target
comparison.  (`formatCampaign` always sets a numeric state, so the fallback
is unreachable on its outputs.) -/
def appStatus (state : Option Nat) (deadline now : Nat)
    (amountCollected target : ℚ) : String :=
  match state with
  | some s =>
      if s = 0 then "active"
      else if s = 1 then "successful"
      else if s = 2 then "failed"
      else if s = 3 then "withdrawn"
      else "active"
  | none =>
      if deadline < now then "failed"
      else if target ≤ amountCollected then "successful"
      else "active"

/-- The per-campaign transformation inside `loadCampaigns` (`App.tsx` lines
110–149): derives the status and rebuilds the object rendered by the UI,
with empty `milestones` / `contributions` / `rewardTiers`. -/
def transformCampaign (bc : FormattedCampaign) (now : Nat) : AppCampaign :=
  let deadline := bc.deadline
  let status := appStatus (some bc.state) deadline now bc.amountCollected
    bc.target
  { id := bc.id
    title := bc.title
    creator := bc.owner
    description := bc.description
    goal := bc.target
    raised := bc.amountCollected
    currency := "ETH"
    deadline := deadline
    category := "Blockchain"
    imageUrl := jsOrStr (some bc.image)
      (some "https://images.unsplash.com/photo-1639762681485-074b7f938ba0?w=800")
    status := status
    milestones := []
    contributions := []
    rewardTiers := [] }

/-- `loadCampaigns` (`App.tsx` lines 90–166): calls `getCampaigns()` with no
arguments and transforms every returned campaign. -/
def loadCampaigns (s : Store) (now : Nat) : List AppCampaign :=
  (getCampaignsDefault s).map fun bc => transformCampaign bc now

/-! ## Execution harness and reachability -/

/-- Running a donation against the ledger: on any failure the store is
untouched (spec §7 "No operation partially commits"). -/
def applyDonate (s : Store) (id contributor amount now : Nat) : Store :=
  match donateToCampaignChain s id contributor amount now with
  | .ok s' => s'
  | .error _ => s

/-- Total Wei moved by the external transfers of an event trace. -/
def transferTotal : List Event → Nat
  | [] => 0
  | .Transfer _ amt :: rest => amt + transferTotal rest
  | _ :: rest => transferTotal rest

/-- Run `claimRefund` for each address in turn, accumulating the total Wei
transferred out (failed claims transfer nothing). -/
def claimAll (s : Store) (id : Nat) : List Nat → Store × Nat
  | [] => (s, 0)
  | a :: rest =>
      match claimRefundChain s id a with
      | .ok (s', ev) =>
          let r := claimAll s' id rest
          (r.1, transferTotal ev + r.2)
      | .error _ => claimAll s id rest

/-- Stores reachable from the empty ledger through the five mutating
operations. -/
inductive Reach : Store → Prop where
  | init : Reach ⟨[]⟩
  | create {s s' : Store} {o : Nat} {t d im : String} {tg dl now n : Nat} :
      Reach s → createCampaignChain s o t d tg dl im now = .ok (s', n) →
      Reach s'
  | donate {s s' : Store} {id ctr amt now : Nat} :
      Reach s → donateToCampaignChain s id ctr amt now = .ok s' → Reach s'
  | finalize {s s' : Store} {id now : Nat} {st : CampaignState} :
      Reach s → finalizeCampaignChain s id now = .ok (s', st) → Reach s'
  | withdraw {s s' : Store} {id caller : Nat} {ev : List Event} :
      Reach s → withdrawFundsChain s id caller = .ok (s', ev) → Reach s'
  | refund {s s' : Store} {id caller : Nat} {ev : List Event} :
      Reach s → claimRefundChain s id caller = .ok (s', ev) → Reach s'

/-! ## The ledger invariant -/

/-- Well-formedness of a single campaign record (spec §3 invariants plus the
finalize decision rule §4.3). -/
structure CampaignWF (c : Campaign) : Prop where
  nodup : (c.contribs.map Contrib.addr).Nodup
  sum_eq : (c.contribs.map Contrib.amount).sum = c.amountCollected
  failed_lt : c.state = .Failed → c.amountCollected < c.target
  success_le : c.state = .Successful ∨ c.state = .Withdrawn →
    c.target ≤ c.amountCollected
  flags : c.state ≠ .Failed → ∀ x ∈ c.contribs, x.refunded = false
  pos : ∀ x ∈ c.contribs, 0 < x.amount

def StoreWF (s : Store) : Prop := ∀ c ∈ s.campaigns, CampaignWF c

/-! ### Concrete fixtures used to instantiate the theorems -/

/-- One campaign (target 5 Wei, deadline 100s) freshly created. -/
def sActive : Store := ⟨[⟨1, "t", "d", "img", 5, 100, 0, .Active, []⟩]⟩

/-- `sActive` after contributor 2 donated 5 Wei. -/
def sFunded : Store := ⟨[⟨1, "t", "d", "img", 5, 100, 5, .Active,
  [⟨2, 5, false⟩]⟩]⟩

/-- `sActive` after contributor 2 donated only 3 Wei. -/
def sUnderfunded : Store := ⟨[⟨1, "t", "d", "img", 5, 100, 3, .Active,
  [⟨2, 3, false⟩]⟩]⟩

/-- `sFunded` finalized Successful at time 100. -/
def sSuccess : Store := ⟨[⟨1, "t", "d", "img", 5, 100, 5, .Successful,
  [⟨2, 5, false⟩]⟩]⟩

/-- `sUnderfunded` finalized Failed at time 100. -/
def sFailed : Store := ⟨[⟨1, "t", "d", "img", 5, 100, 3, .Failed,
  [⟨2, 3, false⟩]⟩]⟩

/-- A raw campaign object carrying state 1 (Successful). -/
def dataSuccessful : CampaignData :=
  ⟨1, "t", "d", some 1, some 5, none, 100, some 5, some "img", none, none,
   none⟩

/-- A raw campaign object whose deadline field came through
`createDeadlineSeconds 5000`. -/
def dataRounded : CampaignData :=
  ⟨1, "t", "d", some 0, some 5, none, createDeadlineSeconds 5000, some 0,
   some "img", none, none, none⟩

/-- A raw campaign object whose deadline field came through
`createDeadlineSeconds 5500`: the sub-second remainder is lost. -/
def dataTruncated : CampaignData :=
  ⟨1, "t", "d", some 0, some 5, none, createDeadlineSeconds 5500, some 0,
   some "img", none, none, none⟩

/-- A five-campaign registry (pagination scenario of spec §8.6). -/
def sFive : Store :=
  ⟨(List.range 5).map fun i => ⟨i, "t", "d", "img", 5, 100, 0, .Active, []⟩⟩

/-- The single campaign of `sFunded`. -/
def cFunded : Campaign := ⟨1, "t", "d", "img", 5, 100, 5, .Active,
  [⟨2, 5, false⟩]⟩

/-- The single campaign of `sFailed`. -/
def cFailed : Campaign := ⟨1, "t", "d", "img", 5, 100, 3, .Failed,
  [⟨2, 3, false⟩]⟩

/-- `sFailed` after contributor 2 claimed their refund. -/
def sFailedRefunded : Store := ⟨[⟨1, "t", "d", "img", 5, 100, 3, .Failed,
  [⟨2, 3, true⟩]⟩]⟩

theorem mem_of_getElem?_eq {α : Type _} {l : List α} {i : Nat} {a : α}
    (h : l[i]? = some a) : a ∈ l := by
  obtain ⟨hi, rfl⟩ := List.getElem?_eq_some.mp h
  exact List.getElem_mem hi

theorem storeWF_set {s : Store} {id : Nat} {c : Campaign}
    (hs : StoreWF s) (hc : CampaignWF c) : StoreWF (setCampaign s id c) := by
  intro c' hc'
  rcases List.mem_or_eq_of_mem_set hc' with h | rfl
  · exact hs _ h
  · exact hc

theorem bumpContrib_map_addr (l : List Contrib) (addr amt : Nat) :
    (bumpContrib l addr amt).map Contrib.addr =
      if addr ∈ l.map Contrib.addr then l.map Contrib.addr
      else l.map Contrib.addr ++ [addr] := by
  induction l with
  | nil => simp [bumpContrib]
  | cons x xs ih =>
      by_cases hx : x.addr = addr
      · simp [bumpContrib, hx]
      · have hne : ¬ addr = x.addr := fun h => hx h.symm
        simp only [bumpContrib, if_neg hx, List.map_cons, List.mem_cons, ih]
        by_cases hmem : addr ∈ xs.map Contrib.addr
        · simp [hmem, hne]
        · simp [hmem, hne]

theorem bumpContrib_nodup {l : List Contrib} {addr amt : Nat}
    (h : (l.map Contrib.addr).Nodup) :
    ((bumpContrib l addr amt).map Contrib.addr).Nodup := by
  rw [bumpContrib_map_addr]
  by_cases hmem : addr ∈ l.map Contrib.addr
  · simpa [hmem] using h
  · simp [hmem, List.nodup_append, h]

theorem bumpContrib_sum (l : List Contrib) (addr amt : Nat) :
    ((bumpContrib l addr amt).map Contrib.amount).sum =
      (l.map Contrib.amount).sum + amt := by
  induction l with
  | nil => simp [bumpContrib]
  | cons x xs ih =>
      by_cases hx : x.addr = addr
      · simp [bumpContrib, hx]; omega
      · simp [bumpContrib, hx, ih]; omega

theorem bumpContrib_refunded {l : List Contrib} {addr amt : Nat}
    (h : ∀ x ∈ l, x.refunded = false) :
    ∀ x ∈ bumpContrib l addr amt, x.refunded = false := by
  induction l with
  | nil => simp [bumpContrib]
  | cons y ys ih =>
      by_cases hy : y.addr = addr
      · intro x hx
        rw [bumpContrib, if_pos hy] at hx
        rcases List.mem_cons.mp hx with rfl | hx
        · exact h y (List.mem_cons_self ..)
        · exact h x (List.mem_cons_of_mem _ hx)
      · intro x hx
        rw [bumpContrib, if_neg hy] at hx
        rcases List.mem_cons.mp hx with rfl | hx
        · exact h x (List.mem_cons_self ..)
        · exact ih (fun z hz => h z (List.mem_cons_of_mem _ hz)) x hx

theorem bumpContrib_pos {l : List Contrib} {addr amt : Nat}
    (hamt : 0 < amt) (h : ∀ x ∈ l, 0 < x.amount) :
    ∀ x ∈ bumpContrib l addr amt, 0 < x.amount := by
  induction l with
  | nil => simpa [bumpContrib] using hamt
  | cons y ys ih =>
      by_cases hy : y.addr = addr
      · intro x hx
        rw [bumpContrib, if_pos hy] at hx
        rcases List.mem_cons.mp hx with rfl | hx
        · exact Nat.lt_of_lt_of_le hamt (Nat.le_add_left ..)
        · exact h x (List.mem_cons_of_mem _ hx)
      · intro x hx
        rw [bumpContrib, if_neg hy] at hx
        rcases List.mem_cons.mp hx with rfl | hx
        · exact h x (List.mem_cons_self ..)
        · exact ih (fun z hz => h z (List.mem_cons_of_mem _ hz)) x hx

theorem markRefunded_map_addr (c : Campaign) (a : Nat) :
    (markRefunded c a).contribs.map Contrib.addr =
      c.contribs.map Contrib.addr := by
  simp only [markRefunded, List.map_map]
  refine List.map_congr_left fun x _ => ?_
  by_cases h : x.addr = a <;> simp [h]

theorem markRefunded_map_amount (c : Campaign) (a : Nat) :
    (markRefunded c a).contribs.map Contrib.amount =
      c.contribs.map Contrib.amount := by
  simp only [markRefunded, List.map_map]
  refine List.map_congr_left fun x _ => ?_
  by_cases h : x.addr = a <;> simp [h]

theorem find?_markRefunded_ne (c : Campaign) {a b : Nat} (h : b ≠ a) :
    (markRefunded c a).contribs.find? (fun x => x.addr = b) =
      c.contribs.find? (fun x => x.addr = b) := by
  simp only [markRefunded]
  induction c.contribs with
  | nil => rfl
  | cons x xs ih =>
      by_cases hx : x.addr = a
      · have hb : ¬ (x.addr = b) := fun hxb => h (hxb ▸ hx.symm ▸ rfl)
        simp only [List.map_cons, if_pos hx]
        rw [List.find?_cons_of_neg _ (by simpa using hb),
            List.find?_cons_of_neg _ (by simpa using hb)]
        exact ih
      · simp only [List.map_cons, if_neg hx]
        by_cases hb : x.addr = b
        · rw [List.find?_cons_of_pos _ (by simpa using hb),
              List.find?_cons_of_pos _ (by simpa using hb)]
        · rw [List.find?_cons_of_neg _ (by simpa using hb),
              List.find?_cons_of_neg _ (by simpa using hb)]
          exact ih

theorem find?_eq_self {l : List Contrib} (h : (l.map Contrib.addr).Nodup)
    {x : Contrib} (hx : x ∈ l) :
    l.find? (fun y => y.addr = x.addr) = some x := by
  induction l with
  | nil => cases hx
  | cons y ys ih =>
      rcases List.mem_cons.mp hx with rfl | hx
      · exact List.find?_cons_of_pos _ (by simp)
      · have hy : y.addr ∉ ys.map Contrib.addr := (List.nodup_cons.mp
          (by simpa using h)).1
        have hxy : ¬ (y.addr = x.addr) := fun heq =>
          hy (heq ▸ List.mem_map_of_mem Contrib.addr hx)
        rw [List.find?_cons_of_neg _ (by simpa using hxy)]
        exact ih (List.nodup_cons.mp (by simpa using h)).2 hx

/-! ### Preservation of the invariant by every operation -/

theorem wf_create {s s' : Store} {o : Nat} {t d im : String}
    {tg dl now n : Nat} (hs : StoreWF s)
    (h : createCampaignChain s o t d tg dl im now = .ok (s', n)) :
    StoreWF s' := by
  unfold createCampaignChain at h
  split_ifs at h
  injection h with h
  injection h with h _
  subst h
  intro c hc
  rcases List.mem_append.mp hc with hmem | hmem
  · exact hs _ hmem
  · rcases List.mem_singleton.mp hmem with rfl
    refine ⟨?_, ?_, ?_, ?_, ?_, ?_⟩
    · simp
    · simp
    · intro hF; cases hF
    · rintro (hS | hS) <;> cases hS
    · simp
    · simp

theorem wf_donate {s s' : Store} {id ctr amt now : Nat} (hs : StoreWF s)
    (h : donateToCampaignChain s id ctr amt now = .ok s') : StoreWF s' := by
  unfold donateToCampaignChain at h
  rcases hm : s.campaigns[id]? with _ | c
  · simp only [hm] at h; cases h
  · simp only [hm] at h
    split_ifs at h with h1 h2 h3
    injection h with h
    subst h
    have hcw : CampaignWF c := hs _ (mem_of_getElem?_eq hm)
    have hA : c.state = .Active := not_not.mp h1
    refine storeWF_set hs ?_
    refine ⟨bumpContrib_nodup hcw.nodup, ?_, ?_, ?_, ?_, ?_⟩
    · simp only [addContribution, bumpContrib_sum, hcw.sum_eq]
    · intro hF; rw [show (addContribution c ctr amt).state = c.state from rfl,
        hA] at hF; cases hF
    · rintro (hS | hS) <;>
        (rw [show (addContribution c ctr amt).state = c.state from rfl,
          hA] at hS; cases hS)
    · intro _ x hx
      exact bumpContrib_refunded (hcw.flags (by simp [hA])) x hx
    · exact bumpContrib_pos (Nat.pos_of_ne_zero h2) hcw.pos

theorem wf_finalize {s s' : Store} {id now : Nat} {st : CampaignState}
    (hs : StoreWF s)
    (h : finalizeCampaignChain s id now = .ok (s', st)) : StoreWF s' := by
  unfold finalizeCampaignChain at h
  rcases hm : s.campaigns[id]? with _ | c
  · simp only [hm] at h; cases h
  · simp only [hm] at h
    split_ifs at h with h1 h2 hdec
    · injection h with h
      injection h with h hst
      subst h
      have hcw : CampaignWF c := hs _ (mem_of_getElem?_eq hm)
      have hA : c.state = .Active := not_not.mp h1
      refine storeWF_set hs ?_
      refine ⟨hcw.nodup, hcw.sum_eq, ?_, ?_, ?_, hcw.pos⟩
      · intro hF; simp at hF
      · intro _; exact hdec
      · intro _ x hx; exact hcw.flags (by simp [hA]) x hx
    · injection h with h
      injection h with h hst
      subst h
      have hcw : CampaignWF c := hs _ (mem_of_getElem?_eq hm)
      have hA : c.state = .Active := not_not.mp h1
      refine storeWF_set hs ?_
      refine ⟨hcw.nodup, hcw.sum_eq, ?_, ?_, ?_, hcw.pos⟩
      · intro _; exact Nat.lt_of_not_le hdec
      · rintro (hS | hS) <;> simp at hS
      · intro hne; simp at hne

theorem wf_withdraw {s s' : Store} {id caller : Nat} {ev : List Event}
    (hs : StoreWF s)
    (h : withdrawFundsChain s id caller = .ok (s', ev)) : StoreWF s' := by
  unfold withdrawFundsChain at h
  rcases hm : s.campaigns[id]? with _ | c
  · simp only [hm] at h; cases h
  · simp only [hm] at h
    split_ifs at h with h1 h2 h3
    injection h with h
    injection h with h hev
    subst h
    have hcw : CampaignWF c := hs _ (mem_of_getElem?_eq hm)
    have hS : c.state = .Successful := not_not.mp h3
    refine storeWF_set hs ?_
    refine ⟨hcw.nodup, hcw.sum_eq, ?_, ?_, ?_, hcw.pos⟩
    · intro hF; cases hF
    · intro _; exact hcw.success_le (Or.inl hS)
    · intro _ x hx; exact hcw.flags (by simp [hS]) x hx

theorem wf_refund {s s' : Store} {id caller : Nat} {ev : List Event}
    (hs : StoreWF s)
    (h : claimRefundChain s id caller = .ok (s', ev)) : StoreWF s' := by
  unfold claimRefundChain at h
  rcases hm : s.campaigns[id]? with _ | c
  · simp only [hm] at h; cases h
  · simp only [hm] at h
    split_ifs at h with h1
    rcases hf : c.contribs.find? (fun x => x.addr = caller) with _ | x
    · simp only [hf] at h; cases h
    · simp only [hf] at h
      split_ifs at h with h2
      injection h with h
      injection h with h hev
      subst h
      have hcw : CampaignWF c := hs _ (mem_of_getElem?_eq hm)
      have hF : c.state = .Failed := not_not.mp h1
      refine storeWF_set hs ?_
      refine ⟨?_, ?_, ?_, ?_, ?_, ?_⟩
      · rw [markRefunded_map_addr]; exact hcw.nodup
      · rw [markRefunded_map_amount]; exact hcw.sum_eq
      · intro _; exact hcw.failed_lt hF
      · rintro (hS | hS) <;> simp [markRefunded, hF] at hS
      · intro hne; simp [markRefunded, hF] at hne
      · intro y hy
        simp only [markRefunded, List.mem_map] at hy
        obtain ⟨z, hz, hzy⟩ := hy
        have hzpos := hcw.pos z hz
        by_cases hza : z.addr = caller
        · rw [if_pos hza] at hzy; subst hzy; exact hzpos
        · rw [if_neg hza] at hzy; subst hzy; exact hzpos

/-- Every reachable store satisfies the ledger invariant. -/
theorem reach_wf {s : Store} (h : Reach s) : StoreWF s := by
  induction h with
  | init => intro c hc; cases hc
  | create _ heq ih => exact wf_create ih heq
  | donate _ heq ih => exact wf_donate ih heq
  | finalize _ heq ih => exact wf_finalize ih heq
  | withdraw _ heq ih => exact wf_withdraw ih heq
  | refund _ heq ih => exact wf_refund ih heq

/-! ### Further helper lemmas -/

theorem jsOrNat_some_none (v : Nat) : jsOrNat (some v) none = v := by
  unfold jsOrNat; by_cases h : v = 0 <;> simp [h]

theorem formatEther_lt {a b : Nat} (h : a < b) :
    formatEther a < formatEther b := by
  unfold formatEther
  exact (div_lt_div_iff_of_pos_right (by positivity)).mpr (by exact_mod_cast h)

theorem formatEther_le {a b : Nat} (h : a ≤ b) :
    formatEther a ≤ formatEther b := by
  unfold formatEther
  exact (div_le_div_iff_of_pos_right (by positivity)).mpr (by exact_mod_cast h)

theorem filterMap_getElem_fst (cs : List Campaign) (l : List Nat)
    (hl : ∀ i ∈ l, i < cs.length) :
    (l.filterMap (fun i => (cs[i]?).map fun c => (i, Campaign.toInfo c))).map
      Prod.fst = l := by
  induction l with
  | nil => rfl
  | cons a as ih =>
      have ha : a < cs.length := hl a (List.mem_cons_self ..)
      obtain ⟨c, hc⟩ : ∃ c, cs[a]? = some c :=
        ⟨cs[a], List.getElem?_eq_some.mpr ⟨ha, rfl⟩⟩
      simp [List.filterMap_cons, hc,
        ih fun i hi => hl i (List.mem_cons_of_mem _ hi)]

theorem range_slice_lt (s : Store) (offset limit : Nat) :
    ∀ i ∈ ((List.range s.campaigns.length).drop offset).take limit,
      i < s.campaigns.length := by
  intro i hi
  have : i ∈ List.range s.campaigns.length :=
    ((List.take_sublist _ _).trans (List.drop_sublist _ _)).subset hi
  simpa using this

theorem getCampaignsChain_map_fst (s : Store) (offset limit : Nat) :
    (getCampaignsChain s offset limit).map Prod.fst =
      ((List.range s.campaigns.length).drop offset).take limit := by
  unfold getCampaignsChain
  exact filterMap_getElem_fst _ _ (range_slice_lt s offset limit)

theorem mem_getCampaignsChain {s : Store} {offset limit : Nat}
    {p : Nat × CampaignInfo} (hp : p ∈ getCampaignsChain s offset limit) :
    offset ≤ p.1 ∧ ∃ c, s.campaigns[p.1]? = some c ∧ p.2 = c.toInfo := by
  unfold getCampaignsChain at hp
  obtain ⟨i, hi, heq⟩ := List.mem_filterMap.mp hp
  rcases hm : s.campaigns[i]? with _ | c
  · rw [hm] at heq; cases heq
  · rw [hm, Option.map_some'] at heq
    injection heq with heq
    subst heq
    refine ⟨?_, c, hm, rfl⟩
    have hdrop : i ∈ (List.range s.campaigns.length).drop offset :=
      (List.take_sublist _ _).subset hi
    obtain ⟨j, hj, hji⟩ := List.mem_drop_iff_getElem.mp hdrop
    rw [List.getElem_range] at hji
    omega

theorem find?_mark_list_eq (a : Nat) :
    ∀ (l : List Contrib) (x : Contrib),
      l.find? (fun y => y.addr = a) = some x →
      (l.map fun y =>
          if y.addr = a then { y with refunded := true } else y).find?
        (fun y => y.addr = a) = some { x with refunded := true } := by
  intro l
  induction l with
  | nil => intro x h; cases h
  | cons z zs ih =>
      intro x h
      by_cases hz : z.addr = a
      · rw [List.find?_cons_of_pos _ (by simpa using hz)] at h
        injection h with h
        subst h
        simp only [List.map_cons, if_pos hz]
        exact List.find?_cons_of_pos _ (by simpa using hz)
      · rw [List.find?_cons_of_neg _ (by simpa using hz)] at h
        simp only [List.map_cons, if_neg hz]
        rw [List.find?_cons_of_neg _ (by simpa using hz)]
        exact ih x h

theorem find?_markRefunded_eq (c : Campaign) (a : Nat) {x : Contrib}
    (h : c.contribs.find? (fun y => y.addr = a) = some x) :
    (markRefunded c a).contribs.find? (fun y => y.addr = a) =
      some { x with refunded := true } := by
  simp only [markRefunded]
  exact find?_mark_list_eq a c.contribs x h

theorem claimRefundChain_ok {s : Store} {id caller : Nat} {c : Campaign}
    {x : Contrib} (hc : s.campaigns[id]? = some c) (hF : c.state = .Failed)
    (hfx : c.contribs.find? (fun y => y.addr = caller) = some x)
    (hxr : x.refunded = false) (hxpos : 0 < x.amount) :
    claimRefundChain s id caller =
      .ok (setCampaign s id (markRefunded c caller),
        [.MarkRefunded id caller, .Transfer caller x.amount]) := by
  unfold claimRefundChain
  simp only [hc]
  rw [if_neg (by simp [hF])]
  simp only [hfx]
  rw [if_neg (not_or.mpr ⟨by omega, by simp [hxr]⟩)]

/-- Folding `claimRefund` over a duplicate-free list of contributors with
unrefunded positive entries transfers exactly the sum of their recorded
contributions. -/
theorem claimAll_total (addrs : List Nat) :
    ∀ (s : Store) (id : Nat) (c : Campaign),
      s.campaigns[id]? = some c → c.state = .Failed → addrs.Nodup →
      (∀ a ∈ addrs, ∃ x, c.contribs.find? (fun y => y.addr = a) = some x ∧
        x.refunded = false ∧ 0 < x.amount) →
      (claimAll s id addrs).2 =
        (addrs.map fun a =>
          ((c.contribs.find? (fun y => y.addr = a)).map Contrib.amount).getD
            0).sum := by
  induction addrs with
  | nil => intro s id c _ _ _ _; rfl
  | cons a rest ih =>
      intro s id c hc hF hnd hall
      obtain ⟨x, hfx, hxr, hxpos⟩ := hall a (List.mem_cons_self ..)
      have hclaim := claimRefundChain_ok hc hF hfx hxr hxpos
      have hnd' := List.nodup_cons.mp hnd
      have hlen : id < s.campaigns.length := (List.getElem?_eq_some.mp hc).1
      have hc' : (setCampaign s id (markRefunded c a)).campaigns[id]? =
          some (markRefunded c a) :=
        List.getElem?_set_eq_of_lt _ (by simpa [setCampaign] using hlen)
      have hF' : (markRefunded c a).state = .Failed := hF
      have hall' : ∀ b ∈ rest, ∃ y,
          (markRefunded c a).contribs.find? (fun z => z.addr = b) = some y ∧
          y.refunded = false ∧ 0 < y.amount := by
        intro b hb
        obtain ⟨y, hfy, hyr, hyp⟩ := hall b (List.mem_cons_of_mem _ hb)
        have hba : b ≠ a := fun heq => hnd'.1 (heq ▸ hb)
        exact ⟨y, (find?_markRefunded_ne c hba).trans hfy, hyr, hyp⟩
      have hmapeq : (rest.map fun b =>
            (((markRefunded c a).contribs.find? (fun y => y.addr = b)).map
              Contrib.amount).getD 0) =
          rest.map fun b =>
            ((c.contribs.find? (fun y => y.addr = b)).map
              Contrib.amount).getD 0 := by
        refine List.map_congr_left fun b hb => ?_
        have hba : b ≠ a := fun heq => hnd'.1 (heq ▸ hb)
        rw [find?_markRefunded_ne c hba]
      simp only [claimAll, hclaim]
      rw [ih _ _ _ hc' hF' hnd'.2 hall', hmapeq]
      simp [transferTotal, hfx]

/-- Every campaign the UI presents as failed is underfunded, and every one
presented as successful or withdrawn met its target (given the ledger
invariant). -/
theorem loadCampaigns_status_spec {s : Store} (hs : StoreWF s) (now : Nat) :
    ∀ a ∈ loadCampaigns s now,
      (a.status = "failed" → a.raised < a.goal) ∧
      (a.status = "successful" ∨ a.status = "withdrawn" →
        a.goal ≤ a.raised) := by
  intro a ha
  obtain ⟨bc, hbc, hta⟩ := List.mem_map.mp ha
  obtain ⟨p, hp, htb⟩ := List.mem_map.mp hbc
  obtain ⟨_, c, hcp, hinfo⟩ := mem_getCampaignsChain hp
  have hcw : CampaignWF c := hs _ (mem_of_getElem?_eq hcp)
  obtain ⟨i, info⟩ := p
  simp only at hinfo hcp
  subst hta htb hinfo
  have hraised : (transformCampaign
      (formatCampaign (CampaignInfo.toData c.toInfo) i
        (CampaignInfo.toData c.toInfo).donators
        (CampaignInfo.toData c.toInfo).donations) now).raised =
      formatEther c.amountCollected := by
    simp [transformCampaign, formatCampaign, CampaignInfo.toData,
      Campaign.toInfo, jsOrNat_some_none]
  have hgoal : (transformCampaign
      (formatCampaign (CampaignInfo.toData c.toInfo) i
        (CampaignInfo.toData c.toInfo).donators
        (CampaignInfo.toData c.toInfo).donations) now).goal =
      formatEther c.target := by
    simp [transformCampaign, formatCampaign, CampaignInfo.toData,
      Campaign.toInfo, jsOrNat_some_none]
  rcases hstate : c.state with _ | _ | _ | _
  · constructor
    · intro hfail
      simp [transformCampaign, formatCampaign, appStatus,
        CampaignInfo.toData, Campaign.toInfo, CampaignState.toNum,
        hstate] at hfail
    · intro hsucc
      rcases hsucc with hsucc | hsucc <;>
        simp [transformCampaign, formatCampaign, appStatus,
          CampaignInfo.toData, Campaign.toInfo, CampaignState.toNum,
          hstate] at hsucc
  · constructor
    · intro hfail
      simp [transformCampaign, formatCampaign, appStatus,
        CampaignInfo.toData, Campaign.toInfo, CampaignState.toNum,
        hstate] at hfail
    · intro _
      rw [hraised, hgoal]
      exact formatEther_le (hcw.success_le (Or.inl hstate))
  · constructor
    · intro _
      rw [hraised, hgoal]
      exact formatEther_lt (hcw.failed_lt hstate)
    · intro hsucc
      rcases hsucc with hsucc | hsucc <;>
        simp [transformCampaign, formatCampaign, appStatus,
          CampaignInfo.toData, Campaign.toInfo, CampaignState.toNum,
          hstate] at hsucc
  · constructor
    · intro hfail
      simp [transformCampaign, formatCampaign, appStatus,
        CampaignInfo.toData, Campaign.toInfo, CampaignState.toNum,
        hstate] at hfail
    · intro _
      rw [hraised, hgoal]
      exact formatEther_le (hcw.success_le (Or.inr hstate))

/-! ### Reachability of the concrete fixtures -/

theorem reach_sActive : Reach sActive :=
  @Reach.create ⟨[]⟩ sActive 1 "t" "d" "img" 5 100 0 0 Reach.init (by rfl)

theorem reach_sFunded : Reach sFunded :=
  @Reach.donate sActive sFunded 0 2 5 10 reach_sActive (by rfl)

theorem reach_sUnderfunded : Reach sUnderfunded :=
  @Reach.donate sActive sUnderfunded 0 2 3 10 reach_sActive (by rfl)

theorem reach_sFailed : Reach sFailed :=
  @Reach.finalize sUnderfunded sFailed 0 100 .Failed reach_sUnderfunded (by rfl)

/-! ## The claims -/

/-- C4: a donation to an existing, still-unfinalized (Active) campaign,
with a positive amount, attempted at or after the deadline, fails with
`DeadlinePassed` — the deadline, not the finalize call, decides
eligibility — and the failed donation leaves the store unchanged. -/
theorem donate_after_deadline (s : Store) (id contributor amount now : Nat)
    (c : Campaign) (hc : s.campaigns[id]? = some c) (hA : c.state = .Active)
    (hamt : 0 < amount) (hd : c.deadline ≤ now) :
    donateToCampaignChain s id contributor amount now =
      .error .DeadlinePassed ∧
    applyDonate s id contributor amount now = s := by
  have h : donateToCampaignChain s id contributor amount now =
      .error .DeadlinePassed := by
    unfold donateToCampaignChain
    simp only [hc]
    rw [if_neg (not_not_intro hA), if_neg (by omega), if_pos hd]
  refine ⟨h, ?_⟩
  unfold applyDonate
  rw [h]

/-- Witness for C4: a concrete past-deadline donation attempt. -/
theorem donate_after_deadline_witness :
    donateToCampaignChain sActive 0 7 4 150 = .error .DeadlinePassed ∧
    applyDonate sActive 0 7 4 150 = sActive :=
  donate_after_deadline sActive 0 7 4 150
    ⟨1, "t", "d", "img", 5, 100, 0, .Active, []⟩ rfl rfl (by decide)
    (by decide)

/-- C5: the client's `donateToCampaign` attaches exactly
`parseEther amount` Wei as the transaction's value: the Wei value read back
as ETH equals the requested decimal amount, with no fee or rounding
discrepancy. -/
theorem donate_value_exact (campaignId mant decs : Nat) (tx : TxRequest)
    (h : donateToCampaign campaignId mant decs = some tx) :
    tx.campaignId = campaignId ∧ parseEther mant decs = some tx.value ∧
    (tx.value : ℚ) / 10 ^ 18 = (mant : ℚ) / 10 ^ decs := by
  unfold donateToCampaign parseEther at h
  split_ifs at h with hd
  · rw [Option.map_some'] at h
    injection h with h
    subst h
    refine ⟨rfl, ?_, ?_⟩
    · unfold parseEther
      rw [if_pos hd]
    · show ((mant * 10 ^ (18 - decs) : ℕ) : ℚ) / 10 ^ 18 =
        (mant : ℚ) / 10 ^ decs
      rw [div_eq_div_iff (by positivity) (by positivity)]
      push_cast
      rw [mul_assoc, ← pow_add, Nat.sub_add_cancel hd]
  · cases h

/-- Witness for C5: donating 1.5 ETH attaches 1.5e18 Wei. -/
theorem donate_value_exact_witness :
    (⟨3, 1500000000000000000⟩ : TxRequest).campaignId = 3 ∧
    parseEther 15 1 = some (⟨3, 1500000000000000000⟩ : TxRequest).value ∧
    ((⟨3, 1500000000000000000⟩ : TxRequest).value : ℚ) / 10 ^ 18 =
      ((15 : ℕ) : ℚ) / 10 ^ (1 : ℕ) :=
  donate_value_exact 3 15 1 ⟨3, 1500000000000000000⟩ (by rfl)

/-- C6: the state enum has exactly the four values Active (0, the state a
campaign is created in), Successful (1), Failed (2), Withdrawn (3), and
`formatCampaign` maps each numeric state to the corresponding status
string. -/
theorem state_enum_format_status :
    (∀ st : CampaignState,
      st = .Active ∨ st = .Successful ∨ st = .Failed ∨ st = .Withdrawn) ∧
    (CampaignState.Active.toNum = 0 ∧ CampaignState.Successful.toNum = 1 ∧
     CampaignState.Failed.toNum = 2 ∧ CampaignState.Withdrawn.toNum = 3) ∧
    (∀ (s s' : Store) (o : Nat) (t d im : String) (tg dl now n : Nat)
      (c : Campaign), createCampaignChain s o t d tg dl im now = .ok (s', n) →
      s'.campaigns[n]? = some c → c.state = .Active) ∧
    (∀ (data : CampaignData) (id : Nat) (dtors dtions : Option (List Nat))
      (st : CampaignState), data.state = some st.toNum →
      (formatCampaign data id dtors dtions).status =
        match st with
        | .Active => "active"
        | .Successful => "successful"
        | .Failed => "failed"
        | .Withdrawn => "withdrawn") := by
  refine ⟨?_, ⟨rfl, rfl, rfl, rfl⟩, ?_, ?_⟩
  · intro st
    cases st
    · exact Or.inl rfl
    · exact Or.inr (Or.inl rfl)
    · exact Or.inr (Or.inr (Or.inl rfl))
    · exact Or.inr (Or.inr (Or.inr rfl))
  · intro s s' o t d im tg dl now n c heq hget
    unfold createCampaignChain at heq
    split_ifs at heq
    injection heq with heq
    injection heq with heq1 heq2
    subst heq1
    subst heq2
    rw [List.getElem?_concat_length] at hget
    injection hget with hget
    subst hget
    rfl
  · intro data id dtors dtions st hstate
    cases st <;> simp [formatCampaign, CampaignState.toNum, hstate]

/-- Witness for C6: a raw object with numeric state 1 is formatted as
successful. -/
theorem state_enum_format_status_witness :
    (formatCampaign dataSuccessful 0 none none).status = "successful" :=
  state_enum_format_status.2.2.2 dataSuccessful 0 none none .Successful rfl

/-- C9: the millisecond-to-second deadline conversion of `createCampaign`
followed by the second-to-millisecond conversion of `formatCampaign` is the
identity on whole-second timestamps and strictly truncates all others. -/
theorem deadline_roundtrip (d : Nat) (data : CampaignData) (id : Nat)
    (dtors dtions : Option (List Nat))
    (h : data.deadline = createDeadlineSeconds d) :
    (1000 ∣ d → (formatCampaign data id dtors dtions).deadline = d) ∧
    (¬ 1000 ∣ d → (formatCampaign data id dtors dtions).deadline < d) := by
  have hdl : (formatCampaign data id dtors dtions).deadline =
      d / 1000 * 1000 := by
    simp [formatCampaign, h, createDeadlineSeconds]
  constructor
  · intro hdvd
    rw [hdl]
    omega
  · intro hndvd
    rw [hdl]
    omega

/-- Witness for C9: 5000 ms survives the round trip. -/
theorem deadline_roundtrip_witness :
    1000 ∣ 5000 ∧ (formatCampaign dataRounded 0 none none).deadline = 5000 :=
  ⟨by decide, (deadline_roundtrip 5000 dataRounded 0 none none rfl).1
    (by decide)⟩

/-- C10: `getCampaigns()` with no arguments uses offset 0 and limit 20,
`loadCampaigns` calls it that way, so the campaign list view shows at most
the first 20 campaigns in creation order. -/
theorem default_pagination_limit (s : Store) (now : Nat) :
    getCampaignsDefault s = getCampaigns s 0 20 ∧
    loadCampaigns s now =
      (getCampaignsDefault s).map (fun bc => transformCampaign bc now) ∧
    (loadCampaigns s now).length = min 20 s.campaigns.length ∧
    (loadCampaigns s now).length ≤ 20 ∧
    (loadCampaigns s now).map AppCampaign.id =
      ((List.range s.campaigns.length).take 20).map toString := by
  have hfst := getCampaignsChain_map_fst s 0 20
  rw [List.drop_zero] at hfst
  have hlen1 : (getCampaignsChain s 0 20).length =
      min 20 s.campaigns.length := by
    have h2 := congrArg List.length hfst
    simpa using h2
  refine ⟨rfl, rfl, ?_, ?_, ?_⟩
  · simp [loadCampaigns, getCampaignsDefault, getCampaigns, hlen1]
  · simp only [loadCampaigns, getCampaignsDefault, getCampaigns,
      List.length_map, hlen1]
    omega
  · calc (loadCampaigns s now).map AppCampaign.id
        = ((getCampaignsChain s 0 20).map Prod.fst).map toString := by
          simp only [loadCampaigns, getCampaignsDefault, getCampaigns,
            List.map_map]
          exact List.map_congr_left fun p _ => rfl
      _ = ((List.range s.campaigns.length).take 20).map toString := by
          rw [hfst]

/-- C2: a successful `withdrawFunds` requires caller = owner and state
Successful, sets the state to Withdrawn strictly before the single external
transfer of the full pooled balance (the trace lists the state write first),
and any re-entrant or repeated withdraw attempt against the resulting store
observes state Withdrawn and is rejected with `AlreadyWithdrawn`. -/
theorem withdraw_once_ordered (s : Store) (id caller : Nat) (s' : Store)
    (ev : List Event)
    (h : withdrawFundsChain s id caller = .ok (s', ev)) :
    ∃ c, s.campaigns[id]? = some c ∧ caller = c.owner ∧
      c.state = .Successful ∧
      ev = [.SetState id .Withdrawn, .Transfer c.owner c.amountCollected] ∧
      s' = setCampaign s id { c with state := .Withdrawn } ∧
      s'.campaigns[id]? = some { c with state := .Withdrawn } ∧
      withdrawFundsChain s' id caller = .error .AlreadyWithdrawn := by
  unfold withdrawFundsChain at h
  rcases hm : s.campaigns[id]? with _ | c
  · simp only [hm] at h; cases h
  · simp only [hm] at h
    split_ifs at h with h1 h2 h3
    injection h with h
    injection h with hs' hev
    subst hs'
    subst hev
    have hlen : id < s.campaigns.length := (List.getElem?_eq_some.mp hm).1
    have hget : (setCampaign s id
        { c with state := .Withdrawn }).campaigns[id]? =
        some { c with state := .Withdrawn } :=
      List.getElem?_set_eq_of_lt _ (by simpa [setCampaign] using hlen)
    refine ⟨c, rfl, not_not.mp h1, not_not.mp h3, rfl, rfl, hget, ?_⟩
    unfold withdrawFundsChain
    simp only [hget]
    simp [not_not.mp h1]

/-- Witness for C2: withdrawing from the concrete Successful campaign. -/
theorem withdraw_once_ordered_witness :
    ∃ c, sSuccess.campaigns[0]? = some c ∧ 1 = c.owner ∧
      c.state = .Successful ∧
      ([Event.SetState 0 .Withdrawn, Event.Transfer 1 5] : List Event) =
        [.SetState 0 .Withdrawn, .Transfer c.owner c.amountCollected] ∧
      (⟨[⟨1, "t", "d", "img", 5, 100, 5, .Withdrawn, [⟨2, 5, false⟩]⟩]⟩ :
          Store) = setCampaign sSuccess 0 { c with state := .Withdrawn } ∧
      (⟨[⟨1, "t", "d", "img", 5, 100, 5, .Withdrawn, [⟨2, 5, false⟩]⟩]⟩ :
          Store).campaigns[0]? = some { c with state := .Withdrawn } ∧
      withdrawFundsChain
        ⟨[⟨1, "t", "d", "img", 5, 100, 5, .Withdrawn, [⟨2, 5, false⟩]⟩]⟩ 0 1 =
        .error .AlreadyWithdrawn :=
  withdraw_once_ordered sSuccess 0 1
    ⟨[⟨1, "t", "d", "img", 5, 100, 5, .Withdrawn, [⟨2, 5, false⟩]⟩]⟩
    [.SetState 0 .Withdrawn, .Transfer 1 5] (by rfl)

/-- C7: the paginated query returns the `[offset, offset+limit)` slice of
the registry in strictly increasing creation-id order with no duplicates,
returns fewer than `limit` items when the slice runs past the last id,
returns the empty sequence when offset ≥ count, and the client-facing items
carry no contributor lists. -/
theorem getCampaigns_pagination (s : Store) (offset limit : Nat)
    (hlim : 0 < limit) :
    ((getCampaignsChain s offset limit).map Prod.fst).Pairwise (· < ·) ∧
    ((getCampaignsChain s offset limit).map Prod.fst).Nodup ∧
    (getCampaignsChain s offset limit).length =
      min limit (s.campaigns.length - offset) ∧
    (s.campaigns.length < offset + limit →
      (getCampaignsChain s offset limit).length < limit) ∧
    (s.campaigns.length ≤ offset → getCampaignsChain s offset limit = []) ∧
    (∀ p ∈ getCampaignsChain s offset limit,
      offset ≤ p.1 ∧ ∃ c, s.campaigns[p.1]? = some c ∧ p.2 = c.toInfo) ∧
    (∀ fc ∈ getCampaigns s offset limit,
      fc.donators = [] ∧ fc.donations = []) := by
  have hpair : ((getCampaignsChain s offset limit).map Prod.fst).Pairwise
      (· < ·) := by
    rw [getCampaignsChain_map_fst]
    exact List.Pairwise.sublist
      ((List.take_sublist _ _).trans (List.drop_sublist _ _))
      (List.pairwise_lt_range _)
  have hlen : (getCampaignsChain s offset limit).length =
      min limit (s.campaigns.length - offset) := by
    have h2 := congrArg List.length (getCampaignsChain_map_fst s offset limit)
    simpa using h2
  refine ⟨hpair, List.Pairwise.imp (fun hab => Nat.ne_of_lt hab) hpair,
    hlen, ?_, ?_, ?_, ?_⟩
  · intro h
    rw [hlen]
    omega
  · intro h
    refine List.length_eq_zero.mp ?_
    rw [hlen]
    omega
  · exact fun p hp => mem_getCampaignsChain hp
  · intro fc hfc
    obtain ⟨p, hp, heq⟩ := List.mem_map.mp hfc
    subst heq
    exact ⟨rfl, rfl⟩

/-- Witness for C7: five campaigns, offset 4 and limit 2 (spec §8
scenario 6). -/
theorem getCampaigns_pagination_witness :
    ((getCampaignsChain sFive 4 2).map Prod.fst).Pairwise (· < ·) ∧
    ((getCampaignsChain sFive 4 2).map Prod.fst).Nodup ∧
    (getCampaignsChain sFive 4 2).length =
      min 2 (sFive.campaigns.length - 4) ∧
    (sFive.campaigns.length < 4 + 2 →
      (getCampaignsChain sFive 4 2).length < 2) ∧
    (sFive.campaigns.length ≤ 4 → getCampaignsChain sFive 4 2 = []) ∧
    (∀ p ∈ getCampaignsChain sFive 4 2,
      4 ≤ p.1 ∧ ∃ c, sFive.campaigns[p.1]? = some c ∧ p.2 = c.toInfo) ∧
    (∀ fc ∈ getCampaigns sFive 4 2,
      fc.donators = [] ∧ fc.donations = []) :=
  getCampaigns_pagination sFive 4 2 (by decide)

/-- C8: the campaign objects the client produces expose no per-milestone
data: `formatCampaign` and the list transformation of `loadCampaigns` both
emit empty `milestones`, `contributions` and `rewardTiers` lists regardless
of the input campaign data. -/
theorem no_milestone_data (data : CampaignData) (id : Nat)
    (dtors dtions : Option (List Nat)) (s : Store) (now : Nat) :
    (formatCampaign data id dtors dtions).milestones = [] ∧
    (formatCampaign data id dtors dtions).contributions = [] ∧
    (formatCampaign data id dtors dtions).rewardTiers = [] ∧
    (∀ a ∈ loadCampaigns s now,
      a.milestones = [] ∧ a.contributions = [] ∧ a.rewardTiers = []) := by
  refine ⟨rfl, rfl, rfl, ?_⟩
  intro a ha
  obtain ⟨bc, _, hta⟩ := List.mem_map.mp ha
  subst hta
  exact ⟨rfl, rfl, rfl⟩

/-- Witness for C8 at a concrete raw campaign object. -/
theorem no_milestone_data_witness :
    (formatCampaign dataSuccessful 0 none none).milestones = [] ∧
    (formatCampaign dataSuccessful 0 none none).contributions = [] ∧
    (formatCampaign dataSuccessful 0 none none).rewardTiers = [] :=
  ⟨(no_milestone_data dataSuccessful 0 none none sFunded 0).1,
   (no_milestone_data dataSuccessful 0 none none sFunded 0).2.1,
   (no_milestone_data dataSuccessful 0 none none sFunded 0).2.2.1⟩

/-- C1: after the deadline, finalize on a still-Active campaign yields
Successful exactly when `amountCollected ≥ target` and Failed otherwise,
and the status presented by the campaign list reflects this rule: an item
is presented as failed only if it is underfunded, and as successful or
withdrawn only if it met its target — so a past-deadline campaign with
`amountCollected ≥ target` is never presented as failed. -/
theorem finalize_decision_presented (s : Store) (hs : Reach s)
    (id now : Nat) (c : Campaign) (hc : s.campaigns[id]? = some c)
    (hd : c.deadline ≤ now) :
    (c.state = .Active →
      finalizeCampaignChain s id now =
        .ok (setCampaign s id { c with state :=
              if c.target ≤ c.amountCollected then .Successful else .Failed },
          if c.target ≤ c.amountCollected then .Successful else .Failed)) ∧
    (∀ now' : Nat, ∀ a ∈ loadCampaigns s now',
      (a.status = "failed" → a.raised < a.goal) ∧
      (a.status = "successful" ∨ a.status = "withdrawn" →
        a.goal ≤ a.raised)) := by
  constructor
  · intro hA
    unfold finalizeCampaignChain
    simp only [hc]
    rw [if_neg (not_not_intro hA), if_neg (Nat.not_lt.mpr hd)]
  · intro now' a ha
    exact loadCampaigns_status_spec (reach_wf hs) now' a ha

/-- Witness for C1: the reachable fully-funded campaign past its
deadline. -/
theorem finalize_decision_presented_witness :
    (cFunded.state = .Active →
      finalizeCampaignChain sFunded 0 200 = .ok (sSuccess, .Successful)) ∧
    (∀ now' : Nat, ∀ a ∈ loadCampaigns sFunded now',
      (a.status = "failed" → a.raised < a.goal) ∧
      (a.status = "successful" ∨ a.status = "withdrawn" →
        a.goal ≤ a.raised)) :=
  finalize_decision_presented sFunded reach_sFunded 0 200 cFunded rfl
    (by decide)

/-- C3: in a reachable Failed campaign, a successful `claimRefund` pays the
caller exactly their recorded cumulative contribution, records the
per-pair marker before the transfer (the trace lists it first), a second
claim by the same pair fails with `NothingToRefund`, and claiming for every
contributor of a freshly failed campaign transfers in total exactly
`amountCollected`. -/
theorem refund_exact_once_total (s : Store) (hs : Reach s)
    (id caller : Nat) (c : Campaign) (hc : s.campaigns[id]? = some c)
    (hF : c.state = .Failed) :
    (∀ s' ev, claimRefundChain s id caller = .ok (s', ev) →
      ∃ x, c.contribs.find? (fun y => y.addr = caller) = some x ∧
        ev = [.MarkRefunded id caller, .Transfer caller x.amount] ∧
        transferTotal ev = x.amount ∧
        claimRefundChain s' id caller = .error .NothingToRefund) ∧
    ((∀ x ∈ c.contribs, x.refunded = false) →
      (claimAll s id (c.contribs.map Contrib.addr)).2 =
        c.amountCollected) := by
  have hwf : CampaignWF c := reach_wf hs _ (mem_of_getElem?_eq hc)
  constructor
  · intro s' ev h
    unfold claimRefundChain at h
    simp only [hc] at h
    rw [if_neg (not_not_intro hF)] at h
    rcases hf : c.contribs.find? (fun y => y.addr = caller) with _ | x
    · simp only [hf] at h; cases h
    · simp only [hf] at h
      split_ifs at h with h2
      injection h with h
      injection h with hs' hev
      subst hs'
      subst hev
      refine ⟨x, hf, rfl, by simp [transferTotal], ?_⟩
      have hlen : id < s.campaigns.length := (List.getElem?_eq_some.mp hc).1
      have hget : (setCampaign s id
          (markRefunded c caller)).campaigns[id]? =
          some (markRefunded c caller) :=
        List.getElem?_set_eq_of_lt _ (by simpa [setCampaign] using hlen)
      have hfind := find?_markRefunded_eq c caller hf
      unfold claimRefundChain
      simp only [hget]
      rw [if_neg (not_not_intro (show (markRefunded c caller).state = .Failed
        from hF))]
      simp only [hfind]
      simp
  · intro hflags
    have hall : ∀ a ∈ c.contribs.map Contrib.addr, ∃ x,
        c.contribs.find? (fun y => y.addr = a) = some x ∧
        x.refunded = false ∧ 0 < x.amount := by
      intro a ha
      obtain ⟨x, hx, rfl⟩ := List.mem_map.mp ha
      exact ⟨x, find?_eq_self hwf.nodup hx, hflags x hx, hwf.pos x hx⟩
    rw [claimAll_total _ s id c hc hF hwf.nodup hall]
    have hmap : ((c.contribs.map Contrib.addr).map fun a =>
        ((c.contribs.find? (fun y => y.addr = a)).map
          Contrib.amount).getD 0) = c.contribs.map Contrib.amount := by
      rw [List.map_map]
      refine List.map_congr_left fun x hx => ?_
      simp [find?_eq_self hwf.nodup hx]
    rw [hmap, hwf.sum_eq]

/-- Witness for C3: the reachable Failed campaign with one contributor. -/
theorem refund_exact_once_total_witness :
    (∀ s' ev, claimRefundChain sFailed 0 2 = .ok (s', ev) →
      ∃ x, cFailed.contribs.find? (fun y => y.addr = 2) = some x ∧
        ev = [.MarkRefunded 0 2, .Transfer 2 x.amount] ∧
        transferTotal ev = x.amount ∧
        claimRefundChain s' 0 2 = .error .NothingToRefund) ∧
    ((∀ x ∈ cFailed.contribs, x.refunded = false) →
      (claimAll sFailed 0 (cFailed.contribs.map Contrib.addr)).2 =
        cFailed.amountCollected) :=
  refund_exact_once_total sFailed reach_sFailed 0 2 cFailed rfl rfl

end HackCrypt
